import Mathlib

/-!
Shallow embedding of `src/cpp/util/libevent_wrapper.cc` (namespace
`cert_trans::libevent`), the adapter layer around the libevent engine.

Modelling conventions:
* A fatal `CHECK_*` failure (glog aborts the process) is modelled by an
  `Option`-valued function returning `none`; a normal return is `some`.
* Engine results (pointer allocations, integer return codes) are inputs:
  an allocation is an `Option Nat` (`none` = libevent returned `NULL`,
  `some p` = a non-null engine object identified by `p`), an integer
  return code is an `Int`.
* Side effects that the claims talk about (frees, deletes, callback
  invocations) are reified as explicit action lists.
* The C `double` timeout of `Event::Add` is modelled as `ℚ`; `trunc` on a
  non-negative value is `Rat.floor`, and the C truncating conversion of a
  non-negative `double` to an integral type is likewise `Rat.floor`.
-/

namespace LibeventWrapper

/-- Model of a parsed `evhttp_uri`:
`port` is `evhttp_uri_get_port` (libevent reports `-1` when no port is
declared, but any `int` is handled by the code), `scheme` is
`evhttp_uri_get_scheme` (`none` = `NULL`), `host` is
`evhttp_uri_get_host`. -/
structure EvhttpUri where
  port : Int
  scheme : Option String
  host : String
deriving DecidableEq

/-- Function `GetPortFromUri` (libevent_wrapper.cc lines 31-43):
```
int retval(evhttp_uri_get_port(uri));
if (retval < 1 || retval > 65535) {
  retval = 0;
  if (!strcmp("http", CHECK_NOTNULL(evhttp_uri_get_scheme(uri)))) {
    retval = 80;
  }
}
return retval;
```
`CHECK_NOTNULL` on a `NULL` scheme aborts, modelled as `none`. -/
def GetPortFromUri (uri : EvhttpUri) : Option Nat :=
  let retval := uri.port
  if retval < 1 ∨ 65535 < retval then
    match uri.scheme with
    | none => none
    | some s => if s = "http" then some 80 else some 0
  else
    some retval.toNat

/-- Constructor `HttpConnection::HttpConnection` (lines 208-212): builds the engine
connection from the URI's host and `GetPortFromUri(uri)`; the engine call
`evhttp_connection_base_new` is wrapped in `CHECK_NOTNULL` inside
`Base::HttpConnectionNew` (lines 112-116), so `connAlloc = none` is fatal.
Returns the connection handle. -/
def HttpConnection.construct (uri : EvhttpUri) (connAlloc : Option Nat) :
    Option Nat :=
  match GetPortFromUri uri with
  | none => none
  | some _ =>
    match connAlloc with
    | none => none
    | some c => some c

/-- C1 (as frozen) is false: a URI with an out-of-range declared port and no
scheme at all does not resolve to the claimed default 0 — `CHECK_NOTNULL`
aborts instead. Concrete input: declared port 0, scheme absent. -/
theorem getPortFromUri_claim_counterexample :
    GetPortFromUri ⟨0, none, "example.com"⟩ ≠ some 0 := by
  decide

/-- C1 (amended): for every URI, if the declared port is in [1, 65535] it is
returned; otherwise, if a scheme is declared, the result is 80 when the
scheme is exactly "http" and 0 when it is any other scheme; if no scheme is
declared (and the port is out of range), resolution aborts fatally. -/
theorem getPortFromUri_resolution (uri : EvhttpUri) :
    GetPortFromUri uri =
      if 1 ≤ uri.port ∧ uri.port ≤ 65535 then
        some uri.port.toNat
      else
        match uri.scheme with
        | none => none
        | some s => some (if s = "http" then 80 else 0) := by
  unfold GetPortFromUri
  by_cases h : uri.port < 1 ∨ 65535 < uri.port
  · have h' : ¬ (1 ≤ uri.port ∧ uri.port ≤ 65535) := by omega
    simp only [if_pos h, if_neg h']
    cases uri.scheme with
    | none => rfl
    | some s => by_cases hs : s = "http" <;> simp [hs]
  · have h' : 1 ≤ uri.port ∧ uri.port ≤ 65535 := by omega
    simp only [if_neg h, if_pos h']

/-- C9: for every URI whose declared port is outside [1, 65535] and whose
scheme is absent, port resolution aborts fatally (rather than returning the
documented default 0), and therefore `OutboundConnection` construction from
such a URI is fatal as well, whatever the engine's allocation would be. -/
theorem getPortFromUri_fatal_without_scheme (uri : EvhttpUri)
    (connAlloc : Option Nat) (hport : uri.port < 1 ∨ 65535 < uri.port)
    (hscheme : uri.scheme = none) :
    GetPortFromUri uri = none ∧ HttpConnection.construct uri connAlloc = none := by
  have hres : GetPortFromUri uri = none := by
    unfold GetPortFromUri
    simp only [if_pos hport, hscheme]
  exact ⟨hres, by unfold HttpConnection.construct; simp only [hres]⟩

/-- Witness for C9 at the concrete URI with declared port 0 and no scheme. -/
theorem getPortFromUri_fatal_without_scheme_witness :
    GetPortFromUri ⟨0, none, "example.com"⟩ = none ∧
      HttpConnection.construct ⟨0, none, "example.com"⟩ (some 7) = none :=
  getPortFromUri_fatal_without_scheme ⟨0, none, "example.com"⟩ (some 7)
    (Or.inl (by decide)) rfl

/-- The `HttpRequest` wrapper (InboundRequest): its one field `req_` is the
reference to the engine request object (`none` = `NULL`). -/
structure HttpRequest where
  req : Option Nat
deriving DecidableEq

/-- Observable lifecycle effects of the `HttpRequest` wrapper:
`wrapperFree e` is the wrapper calling `evhttp_request_free(e)` itself,
`engineFree e` is libevent freeing `e` after `Done` returns,
`callbackRun e` is the user completion callback firing for request `e`. -/
inductive ReqAction where
  | wrapperFree (e : Nat)
  | engineFree (e : Nat)
  | callbackRun (e : Nat)
deriving DecidableEq

/-- Constructor `HttpRequest::HttpRequest` (lines 180-183):
`req_ = CHECK_NOTNULL(evhttp_request_new(&Done, this))`; a `NULL`
allocation aborts. -/
def HttpRequest.construct (allocResult : Option Nat) : Option HttpRequest :=
  match allocResult with
  | none => none
  | some e => some ⟨some e⟩

/-- Destructor `HttpRequest::~HttpRequest` (lines 186-191): frees the engine object iff
`req_` is still non-null. Returns the destructor's free actions. -/
def HttpRequest.destructorActions (w : HttpRequest) : List ReqAction :=
  match w.req with
  | some e => [ReqAction.wrapperFree e]
  | none => []

/-- Trampoline `HttpRequest::Done` (lines 195-205): `CHECK_NOTNULL(userdata)`,
`CHECK_EQ(self->req_, CHECK_NOTNULL(req))`, run the user callback, set
`self->req_ = NULL`, then `delete self` (which runs `~HttpRequest` on the
nulled wrapper); after `Done` returns, libevent frees `req` itself.
Returns the emitted action list, `none` on a `CHECK` failure. -/
def HttpRequest.Done (userdata : Option HttpRequest) (req : Option Nat) :
    Option (List ReqAction) :=
  match userdata, req with
  | some self, some e =>
    if self.req = some e then
      some (ReqAction.callbackRun e ::
        (HttpRequest.destructorActions ⟨none⟩ ++ [ReqAction.engineFree e]))
    else none
  | _, _ => none

/-- A wrapper's lifecycle phase: `pending e` = constructed with engine object
`e` and `req_ = e` still set; `freedEarly e` = destroyed before completion;
`completed e` = the `Done` trampoline fired and deleted the wrapper. -/
inductive ReqPhase where
  | pending (e : Nat)
  | freedEarly (e : Nat)
  | completed (e : Nat)
deriving DecidableEq

/-- The only two code paths that move a pending wrapper out of its phase:
its destructor (lines 186-191) and the `Done` trampoline (lines 195-205);
each step records the actions that path emits. -/
inductive ReqStep : ReqPhase → List ReqAction → ReqPhase → Prop where
  | destruct (e : Nat) :
      ReqStep (ReqPhase.pending e) (HttpRequest.destructorActions ⟨some e⟩)
        (ReqPhase.freedEarly e)
  | done (e : Nat) (acts : List ReqAction)
      (h : HttpRequest.Done (some ⟨some e⟩) (some e) = some acts) :
      ReqStep (ReqPhase.pending e) acts (ReqPhase.completed e)

/-- C2: (i) a wrapper destroyed while pending frees the engine object exactly
once; (ii) when the completion trampoline fires it runs the user callback
once, the engine frees the object once, and the wrapper (deleted with its
reference already nulled) never frees it directly; (iii) the nulled wrapper's
destructor frees nothing; (iv) `completed` and `freedEarly` are terminal, so
the pending-to-completed transition happens at most once; (v) no step leads
back to `pending`. -/
theorem inboundRequest_lifecycle :
    (∀ e, HttpRequest.destructorActions ⟨some e⟩ = [ReqAction.wrapperFree e]) ∧
    (∀ e acts, HttpRequest.Done (some ⟨some e⟩) (some e) = some acts →
      acts.count (ReqAction.callbackRun e) = 1 ∧
      acts.count (ReqAction.engineFree e) = 1 ∧
      acts.count (ReqAction.wrapperFree e) = 0) ∧
    (HttpRequest.destructorActions ⟨none⟩ = []) ∧
    (∀ e acts p, ¬ ReqStep (ReqPhase.completed e) acts p) ∧
    (∀ e acts p, ¬ ReqStep (ReqPhase.freedEarly e) acts p) ∧
    (∀ s acts e, ¬ ReqStep s acts (ReqPhase.pending e)) := by
  refine ⟨fun e => rfl, ?_, rfl, ?_, ?_, ?_⟩
  · intro e acts h
    unfold HttpRequest.Done at h
    dsimp only at h
    rw [if_pos rfl] at h
    injection h with h
    subst h
    simp [HttpRequest.destructorActions, List.count_cons, List.count_nil]
  · intro e acts p h
    cases h
  · intro e acts p h
    cases h
  · intro s acts e h
    cases h

/-- Witness for C2 at the concrete engine request 5: the destructor of a
pending wrapper frees it once, `Done` emits exactly the callback and the
engine-side free, and no step leaves the completed phase. -/
theorem inboundRequest_lifecycle_witness :
    (HttpRequest.destructorActions ⟨some 5⟩ = [ReqAction.wrapperFree 5]) ∧
    ([ReqAction.callbackRun 5, ReqAction.engineFree 5].count
        (ReqAction.wrapperFree 5) = 0) ∧
    ¬ ReqStep (ReqPhase.completed 5) [] (ReqPhase.pending 5) :=
  ⟨inboundRequest_lifecycle.1 5,
    (inboundRequest_lifecycle.2.1 5
      [ReqAction.callbackRun 5, ReqAction.engineFree 5] (by decide)).2.2,
    inboundRequest_lifecycle.2.2.2.1 5 [] (ReqPhase.pending 5)⟩

/-- The `Base` wrapper state (EventLoopHandle): `base_` is the loop-context
pointer exactly as returned by `event_base_new()` (`none` = `NULL` — the
constructor performs no check on it), `dns_` is the lazily-created DNS
resolver handle (`NULL` at construction). -/
structure BaseState where
  base : Option Nat
  dns : Option Nat
deriving DecidableEq

/-- Engine call recorded by `Base::Base`. -/
inductive BaseCtorAction where
  | makeNotifiable (ctx : Option Nat)
deriving DecidableEq

/-- Constructor `Base::Base` (lines 62-64):
`base_(event_base_new()), dns_(NULL)` followed by
`evthread_make_base_notifiable(base_)`. The allocation result is stored
unconditionally — there is no `CHECK_NOTNULL` here, so the constructor
always returns (it is not `Option`-valued) and passes whatever
`event_base_new()` returned, `NULL` included, to
`evthread_make_base_notifiable`. -/
def Base.construct (allocResult : Option Nat) :
    BaseState × List BaseCtorAction :=
  (⟨allocResult, none⟩, [BaseCtorAction.makeNotifiable allocResult])

/-- C3 evaluation at the failing input: when `event_base_new()` returns
`NULL`, `Base::Base` does not abort with a diagnostic — it completes,
stores the null context, and still calls `evthread_make_base_notifiable` on
it. (Every other engine allocation in this file is wrapped in
`CHECK_NOTNULL`; this one is not.) -/
theorem base_construct_unchecked_allocation :
    Base.construct none = (⟨none, none⟩, [BaseCtorAction.makeNotifiable none]) :=
  rfl

/-- Method `Base::GetDns` (lines 101-109), sequential model of the lock-guarded
body: if `dns_` is already set, return it unchanged; otherwise
`dns_ = CHECK_NOTNULL(evdns_base_new(base_, 1))` (fatal on `NULL`).
Returns the handle, the new state, and how many resolver handles this call
created (0 or 1). -/
def Base.GetDns (st : BaseState) (allocResult : Option Nat) :
    Option (Nat × BaseState × Nat) :=
  match st.dns with
  | some d => some (d, st, 0)
  | none =>
    match allocResult with
    | none => none
    | some h => some (h, ⟨st.base, some h⟩, 1)

/-- A sequence of `GetDns` calls on the same `Base`, one engine allocation
result per call; returns the handles handed out, the final state, and the
total number of resolver handles created. -/
def Base.GetDnsTrace (st : BaseState) (allocs : List (Option Nat)) :
    Option (List Nat × BaseState × Nat) :=
  match allocs with
  | [] => some ([], st, 0)
  | a :: rest =>
    match Base.GetDns st a with
    | none => none
    | some (d, st', n) =>
      match Base.GetDnsTrace st' rest with
      | none => none
      | some (ds, st'', m) => some (d :: ds, st'', n + m)

/-- Once the resolver handle exists, any further sequence of `GetDns` calls
returns that same handle every time, leaves the state unchanged and
creates nothing. -/
theorem getDnsTrace_after_creation (allocs : List (Option Nat))
    (st : BaseState) (d : Nat) (h : st.dns = some d) :
    Base.GetDnsTrace st allocs = some (List.replicate allocs.length d, st, 0) := by
  induction allocs with
  | nil => rfl
  | cons a rest ih =>
    unfold Base.GetDnsTrace Base.GetDns
    rw [h]
    dsimp only
    rw [ih]
    simp [List.replicate]

/-- C8: on a `Base` whose resolver is not yet created, the first `GetDns`
call creates it (exactly one creation) and every subsequent call — however
many — returns the identical handle with no further creation; moreover any
single `GetDns` call on a state that already has a handle returns exactly
that handle and changes nothing. -/
theorem getDns_lazy_idempotent (st : BaseState) (h : Nat)
    (allocs : List (Option Nat)) (hnone : st.dns = none) :
    Base.GetDnsTrace st (some h :: allocs) =
      some (h :: List.replicate allocs.length h, ⟨st.base, some h⟩, 1) ∧
    (∀ st' d a, st'.dns = some d → Base.GetDns st' a = some (d, st', 0)) := by
  constructor
  · unfold Base.GetDnsTrace Base.GetDns
    rw [hnone]
    dsimp only
    rw [getDnsTrace_after_creation allocs ⟨st.base, some h⟩ h rfl]
  · intro st' d a hd
    unfold Base.GetDns
    rw [hd]

/-- Witness for C8: three calls on a fresh `Base`, the first allocation
yielding handle 42 — one creation, all three calls return 42. -/
theorem getDns_lazy_idempotent_witness :
    Base.GetDnsTrace ⟨some 1, none⟩ [some 42, some 99, none] =
      some ([42, 42, 42], ⟨some 1, some 42⟩, 1) ∧
    Base.GetDns ⟨some 1, some 42⟩ none = some (42, ⟨some 1, some 42⟩, 0) :=
  ⟨(getDns_lazy_idempotent ⟨some 1, none⟩ 42 [some 99, none] rfl).1,
    (getDns_lazy_idempotent ⟨some 1, none⟩ 42 [some 99, none] rfl).2
      ⟨some 1, some 42⟩ 42 none rfl⟩

/-- POSIX signal numbers used by `Base::Dispatch`. -/
def SIGHUP : Nat := 1

/-- Interrupt signal number. -/
def SIGINT : Nat := 2

/-- Terminate signal number. -/
def SIGTERM : Nat := 15

/-- What a signal handler asks of the running loop. `Handler_ExitLoop`
(lines 19-21) calls `event_base_loopexit(base, NULL)`: an orderly exit
request, processed after the current iteration — not an immediate abort. -/
inductive LoopRequest where
  | exitAfterCurrent
  | abortNow
deriving DecidableEq

/-- The behaviour of `Handler_ExitLoop`, the callback every exit-signal
registration is bound to. -/
def Handler_ExitLoop : LoopRequest :=
  LoopRequest.exitAfterCurrent

/-- One installed signal handler: the signal number and what its handler
requests when the signal arrives. -/
structure SignalHandlerInstall where
  signum : Nat
  handler : LoopRequest
deriving DecidableEq

/-- Function `SetExitLoopHandler` (lines 23-28): `evsignal_new(base, signum,
Handler_ExitLoop, base)` wrapped in `CHECK_NOTNULL`, then
`CHECK_GE(event_add(signal_event, NULL), 0)`. Fatal (`none`) when the
allocation is `NULL` or `event_add` returns a negative value. -/
def SetExitLoopHandler (signum : Nat) (allocResult : Option Nat)
    (addResult : Int) : Option SignalHandlerInstall :=
  match allocResult with
  | none => none
  | some _ =>
    if 0 ≤ addResult then some ⟨signum, Handler_ExitLoop⟩ else none

/-- Engine results consumed by one `Base::Dispatch` call: the
`evsignal_new` allocation and `event_add` return code for each of the
three handlers, and the `event_base_dispatch` return code. -/
structure DispatchEngine where
  hupAlloc : Option Nat
  hupAdd : Int
  intAlloc : Option Nat
  intAdd : Int
  termAlloc : Option Nat
  termAdd : Int
  dispatchResult : Int
deriving DecidableEq

/-- Method `Base::Dispatch` (lines 75-81): installs the exit handlers for SIGHUP,
SIGINT, SIGTERM in that order, then `CHECK_EQ(event_base_dispatch(base_), 0)`.
Returns the list of installed handlers, `none` on any fatal `CHECK`. -/
def Base.Dispatch (eng : DispatchEngine) : Option (List SignalHandlerInstall) :=
  match SetExitLoopHandler SIGHUP eng.hupAlloc eng.hupAdd with
  | none => none
  | some h1 =>
    match SetExitLoopHandler SIGINT eng.intAlloc eng.intAdd with
    | none => none
    | some h2 =>
      match SetExitLoopHandler SIGTERM eng.termAlloc eng.termAdd with
      | none => none
      | some h3 =>
        if eng.dispatchResult = 0 then some [h1, h2, h3] else none

/-- Helper: whenever `SetExitLoopHandler` returns at all, the installed
handler is for the requested signal and requests an orderly exit. -/
theorem setExitLoopHandler_some (signum : Nat) (alloc : Option Nat)
    (addResult : Int) (inst : SignalHandlerInstall)
    (h : SetExitLoopHandler signum alloc addResult = some inst) :
    inst = ⟨signum, LoopRequest.exitAfterCurrent⟩ := by
  unfold SetExitLoopHandler at h
  cases alloc with
  | none => cases h
  | some a =>
    by_cases hadd : (0 : Int) ≤ addResult
    · rw [if_pos hadd] at h
      injection h with h
      exact h.symm
    · rw [if_neg hadd] at h
      cases h

/-- C6: every non-fatal `runForever` call installs handlers for exactly the
three signals SIGHUP, SIGINT, SIGTERM, each bound to the orderly
loop-exit request (never an immediate abort); installation is fatal when
the handler allocation fails or its `event_add` is negative; and the whole
call is fatal when any installation fails or the dispatch call returns a
non-zero result. -/
theorem dispatch_installs_three_exit_handlers :
    (∀ eng hs, Base.Dispatch eng = some hs →
      hs = [⟨SIGHUP, LoopRequest.exitAfterCurrent⟩,
            ⟨SIGINT, LoopRequest.exitAfterCurrent⟩,
            ⟨SIGTERM, LoopRequest.exitAfterCurrent⟩]) ∧
    (∀ signum addResult, SetExitLoopHandler signum none addResult = none) ∧
    (∀ signum e addResult, addResult < 0 →
      SetExitLoopHandler signum (some e) addResult = none) ∧
    (∀ eng, eng.dispatchResult ≠ 0 → Base.Dispatch eng = none) ∧
    (∀ eng, SetExitLoopHandler SIGHUP eng.hupAlloc eng.hupAdd = none ∨
            SetExitLoopHandler SIGINT eng.intAlloc eng.intAdd = none ∨
            SetExitLoopHandler SIGTERM eng.termAlloc eng.termAdd = none →
      Base.Dispatch eng = none) := by
  refine ⟨?_, fun signum addResult => rfl, ?_, ?_, ?_⟩
  · intro eng hs h
    unfold Base.Dispatch at h
    cases hh1 : SetExitLoopHandler SIGHUP eng.hupAlloc eng.hupAdd with
    | none => rw [hh1] at h; cases h
    | some s1 =>
      rw [hh1] at h
      cases hh2 : SetExitLoopHandler SIGINT eng.intAlloc eng.intAdd with
      | none => rw [hh2] at h; cases h
      | some s2 =>
        rw [hh2] at h
        cases hh3 : SetExitLoopHandler SIGTERM eng.termAlloc eng.termAdd with
        | none => rw [hh3] at h; cases h
        | some s3 =>
          rw [hh3] at h
          dsimp only at h
          by_cases hd : eng.dispatchResult = 0
          · rw [if_pos hd] at h
            injection h with h
            subst h
            rw [setExitLoopHandler_some _ _ _ _ hh1,
              setExitLoopHandler_some _ _ _ _ hh2,
              setExitLoopHandler_some _ _ _ _ hh3]
          · rw [if_neg hd] at h
            cases h
  · intro signum e addResult hneg
    unfold SetExitLoopHandler
    rw [if_neg (by omega)]
  · intro eng hne
    unfold Base.Dispatch
    cases hh : SetExitLoopHandler SIGHUP eng.hupAlloc eng.hupAdd with
    | none => rfl
    | some h1 =>
      cases hi : SetExitLoopHandler SIGINT eng.intAlloc eng.intAdd with
      | none => rfl
      | some h2 =>
        cases ht : SetExitLoopHandler SIGTERM eng.termAlloc eng.termAdd with
        | none => rfl
        | some h3 => dsimp only; rw [if_neg hne]
  · intro eng hfail
    unfold Base.Dispatch
    rcases hfail with hf | hf | hf
    · rw [hf]
    · cases hh : SetExitLoopHandler SIGHUP eng.hupAlloc eng.hupAdd with
      | none => rfl
      | some h1 => dsimp only; rw [hf]
    · cases hh : SetExitLoopHandler SIGHUP eng.hupAlloc eng.hupAdd with
      | none => rfl
      | some h1 =>
        cases hi : SetExitLoopHandler SIGINT eng.intAlloc eng.intAdd with
        | none => rfl
        | some h2 => dsimp only; rw [hf]

/-- Witness for C6 at a concrete engine: all allocations succeed, all adds
return 0, dispatch returns 0 — handlers for exactly SIGHUP, SIGINT, SIGTERM
are installed, each requesting orderly exit; and a failing concrete
`event_add` makes installation fatal. -/
theorem dispatch_installs_three_exit_handlers_witness :
    ([⟨SIGHUP, Handler_ExitLoop⟩, ⟨SIGINT, Handler_ExitLoop⟩,
        ⟨SIGTERM, Handler_ExitLoop⟩] :
      List SignalHandlerInstall) =
      [⟨SIGHUP, LoopRequest.exitAfterCurrent⟩,
        ⟨SIGINT, LoopRequest.exitAfterCurrent⟩,
        ⟨SIGTERM, LoopRequest.exitAfterCurrent⟩] ∧
    SetExitLoopHandler SIGHUP (some 3) (-1) = none ∧
    Base.Dispatch ⟨some 3, 0, some 4, 0, some 5, 0, 1⟩ = none :=
  ⟨dispatch_installs_three_exit_handlers.1 ⟨some 3, 0, some 4, 0, some 5, 0, 0⟩
      _ (by decide),
    dispatch_installs_three_exit_handlers.2.2.1 SIGHUP 3 (-1) (by decide),
    dispatch_installs_three_exit_handlers.2.2.2.1
      ⟨some 3, 0, some 4, 0, some 5, 0, 1⟩ (by decide)⟩

/-- Record `HttpServer::Handler` (lines 52-59): an immutable (path, callback)
record. `recId` stands for the identity of the heap allocation (each
`new Handler` is a distinct object); `cb` is the callback's identity. -/
structure Handler where
  recId : Nat
  path : String
  cb : Nat
deriving DecidableEq

/-- The `HttpServer` wrapper state: the `evhttp` endpoint handle `http_`
and the owned `handlers_` vector, in insertion order. -/
structure ServerState where
  http : Nat
  handlers : List Handler
deriving DecidableEq

/-- Constructor `HttpServer::HttpServer` (lines 149-150): `http_(base.HttpNew())`,
where `Base::HttpNew` (lines 96-98) is `CHECK_NOTNULL(evhttp_new(base_))`
— fatal on `NULL`. The handler vector starts empty. -/
def HttpServer.construct (httpAlloc : Option Nat) : Option ServerState :=
  match httpAlloc with
  | none => none
  | some h => some ⟨h, []⟩

/-- Method `HttpServer::AddHandler` (lines 167-172): heap-allocate the Handler,
`push_back` it into `handlers_`, then return
`evhttp_set_cb(http_, path.c_str(), &HandleRequest, handler) == 0`.
The fresh record's identity is modelled by the current vector length
(allocations are pairwise distinct); `setCbResult` is the engine's return
code. -/
def HttpServer.AddHandler (st : ServerState) (path : String) (cb : Nat)
    (setCbResult : Int) : Bool × ServerState :=
  let handler : Handler := ⟨st.handlers.length, path, cb⟩
  (setCbResult == 0, ⟨st.http, st.handlers ++ [handler]⟩)

/-- Teardown effects of `HttpServer::~HttpServer`. -/
inductive TeardownAction where
  | freeEndpoint (h : Nat)
  | deleteHandler (hd : Handler)
deriving DecidableEq

/-- Destructor `HttpServer::~HttpServer` (lines 153-159): `evhttp_free(http_)` first,
then `delete *it` for every element of `handlers_` in order. -/
def HttpServer.destructorActions (st : ServerState) : List TeardownAction :=
  TeardownAction.freeEndpoint st.http ::
    st.handlers.map TeardownAction.deleteHandler

/-- Method `HttpServer::Bind` (lines 162-164):
`CHECK_EQ(evhttp_bind_socket(http_, address, port), 0)` — fatal on any
non-zero result, no value returned. -/
def HttpServer.Bind (bindResult : Int) : Option Unit :=
  if bindResult = 0 then some () else none

/-- Method `Base::DispatchOnce` (lines 84-86):
`CHECK_EQ(event_base_loop(base_, EVLOOP_ONCE), 0)` — fatal on non-zero. -/
def Base.DispatchOnce (loopResult : Int) : Option Unit :=
  if loopResult = 0 then some () else none

/-- Method `HttpConnection::MakeRequest` (lines 220-223):
`CHECK_EQ(evhttp_make_request(conn_, req->get(), type, uri.c_str()), 0)` —
fatal on non-zero. -/
def HttpConnection.MakeRequest (makeResult : Int) : Option Unit :=
  if makeResult = 0 then some () else none

/-- Method `Base::EventNew` (lines 89-93): `CHECK_NOTNULL(event_new(...))` —
fatal on `NULL`, otherwise the allocated event handle. -/
def Base.EventNew (allocResult : Option Nat) : Option Nat :=
  match allocResult with
  | none => none
  | some e => some e

/-- Helper: a non-zero `event_base_dispatch` result makes `Base::Dispatch`
fatal, whatever the signal-handler installations did. -/
theorem dispatch_fatal_on_dispatch_error (eng : DispatchEngine)
    (hne : eng.dispatchResult ≠ 0) : Base.Dispatch eng = none := by
  unfold Base.Dispatch
  cases hh : SetExitLoopHandler SIGHUP eng.hupAlloc eng.hupAdd with
  | none => rfl
  | some h1 =>
    cases hi : SetExitLoopHandler SIGINT eng.intAlloc eng.intAdd with
    | none => rfl
    | some h2 =>
      cases ht : SetExitLoopHandler SIGTERM eng.termAlloc eng.termAdd with
      | none => rfl
      | some h3 => dsimp only; rw [if_neg hne]

/-- C4: `addHandler` returns true iff the engine's `evhttp_set_cb` returned
zero (false exactly on a non-zero result), and it is the only operation of
the layer that reports failure as a boolean — every other fallible
operation is fatal (modelled `none`) on its failure condition: `bind`,
`runOnce` dispatch, `makeRequest`, `runForever` dispatch on non-zero
return codes, and `evhttp_new` / `event_new` / `evhttp_request_new` /
`evdns_base_new` on `NULL` allocations. -/
theorem addHandler_sole_boolean_result :
    (∀ st path cb r, ((HttpServer.AddHandler st path cb r).1 = true ↔ r = 0)) ∧
    (∀ r, r ≠ 0 → HttpServer.Bind r = none) ∧
    (∀ r, r ≠ 0 → Base.DispatchOnce r = none) ∧
    (∀ r, r ≠ 0 → HttpConnection.MakeRequest r = none) ∧
    (∀ eng, eng.dispatchResult ≠ 0 → Base.Dispatch eng = none) ∧
    (HttpServer.construct none = none) ∧
    (Base.EventNew none = none) ∧
    (HttpRequest.construct none = none) ∧
    (∀ st, st.dns = none → Base.GetDns st none = none) := by
  refine ⟨?_, ?_, ?_, ?_, ?_, rfl, rfl, rfl, ?_⟩
  · intro st path cb r
    simp [HttpServer.AddHandler]
  · intro r hr
    unfold HttpServer.Bind
    rw [if_neg hr]
  · intro r hr
    unfold Base.DispatchOnce
    rw [if_neg hr]
  · intro r hr
    unfold HttpConnection.MakeRequest
    rw [if_neg hr]
  · intro eng hr
    exact dispatch_fatal_on_dispatch_error eng hr
  · intro st hd
    unfold Base.GetDns
    rw [hd]

/-- Witness for C4 at concrete inputs: a failing `evhttp_set_cb` (result 1)
makes `addHandler` return false, a succeeding one (result 0) returns true,
while a failing bind is fatal. -/
theorem addHandler_sole_boolean_result_witness :
    ((HttpServer.AddHandler ⟨9, []⟩ "/ping" 4 1).1 = true ↔ (1 : Int) = 0) ∧
    ((HttpServer.AddHandler ⟨9, []⟩ "/ping" 4 0).1 = true ↔ (0 : Int) = 0) ∧
    HttpServer.Bind 1 = none :=
  ⟨addHandler_sole_boolean_result.1 ⟨9, []⟩ "/ping" 4 1,
    addHandler_sole_boolean_result.1 ⟨9, []⟩ "/ping" 4 0,
    addHandler_sole_boolean_result.2.1 1 (by decide)⟩

/-- C7: server destruction first frees the HTTP endpoint — it is the head of
the teardown sequence — and only afterwards deletes the owned Handler
records, in vector order; each owned record (the allocations are pairwise
distinct) is deleted exactly once. -/
theorem server_destructor_endpoint_then_handlers (st : ServerState) :
    HttpServer.destructorActions st =
      TeardownAction.freeEndpoint st.http ::
        st.handlers.map TeardownAction.deleteHandler ∧
    (HttpServer.destructorActions st).head? =
      some (TeardownAction.freeEndpoint st.http) ∧
    (∀ hd, st.handlers.Nodup → hd ∈ st.handlers →
      (HttpServer.destructorActions st).count
        (TeardownAction.deleteHandler hd) = 1) := by
  refine ⟨rfl, rfl, ?_⟩
  intro hd hnd hmem
  unfold HttpServer.destructorActions
  rw [List.count_cons_of_ne (by intro h; cases h)]
  rw [List.count_map_of_injective st.handlers TeardownAction.deleteHandler
    (fun a b hab => by injection hab) hd]
  exact List.count_eq_one_of_mem hnd hmem

/-- Witness for C7 on a concrete server owning two distinct Handler
records: the endpoint free comes first and each record is deleted once. -/
theorem server_destructor_endpoint_then_handlers_witness :
    (HttpServer.destructorActions ⟨9, [⟨0, "/a", 1⟩, ⟨1, "/b", 2⟩]⟩).head? =
      some (TeardownAction.freeEndpoint 9) ∧
    (HttpServer.destructorActions ⟨9, [⟨0, "/a", 1⟩, ⟨1, "/b", 2⟩]⟩).count
      (TeardownAction.deleteHandler ⟨0, "/a", 1⟩) = 1 :=
  ⟨(server_destructor_endpoint_then_handlers ⟨9, [⟨0, "/a", 1⟩, ⟨1, "/b", 2⟩]⟩).2.1,
    (server_destructor_endpoint_then_handlers ⟨9, [⟨0, "/a", 1⟩, ⟨1, "/b", 2⟩]⟩).2.2
      ⟨0, "/a", 1⟩ (by decide) (by decide)⟩

/-- C10: `addHandler` appends the freshly allocated Handler record to the
owned collection no matter what the registration call returns — in
particular on the failure path (non-zero `evhttp_set_cb`) the record stays
in the collection, is never rolled back, and is deleted (only) by the
destructor's teardown sequence. -/
theorem addHandler_appends_even_on_failure (st : ServerState) (path : String)
    (cb : Nat) (r : Int) :
    ((HttpServer.AddHandler st path cb r).2).handlers =
      st.handlers ++ [⟨st.handlers.length, path, cb⟩] ∧
    ((HttpServer.AddHandler st path cb r).2).http = st.http ∧
    TeardownAction.deleteHandler ⟨st.handlers.length, path, cb⟩ ∈
      HttpServer.destructorActions (HttpServer.AddHandler st path cb r).2 := by
  refine ⟨rfl, rfl, ?_⟩
  unfold HttpServer.destructorActions HttpServer.AddHandler
  exact List.mem_cons_of_mem _
    (List.mem_map_of_mem _ (List.mem_append_right _ (List.mem_singleton.2 rfl)))

/-- A `struct timeval`: whole seconds and microseconds. -/
structure Timeval where
  tv_sec : Int
  tv_usec : Int
deriving DecidableEq

/-- Modelled from the spec: `kNumMicrosPerSecond` is declared in
`base/time_support.h`, which is not among the sources; the spec describes
the sub-second component as the remaining fraction scaled to microseconds
(microsecond resolution), so the constant is 1000000 microseconds per
second. -/
def kNumMicrosPerSecond : ℚ := 1000000

/-- Method `Event::Add` (lines 130-141): the C `double` timeout is modelled as
`ℚ`.
```
timeval* tvp(NULL);
if (timeout >= 0) {
  tv.tv_sec = trunc(timeout);
  timeout -= tv.tv_sec;
  tv.tv_usec = timeout * kNumMicrosPerSecond;
  tvp = &tv;
}
CHECK_EQ(event_add(ev_, tvp), 0);
```
For `timeout ≥ 0`, `trunc` is `Rat.floor`, and the truncating C conversion
of the non-negative product to `tv_usec` is again `Rat.floor`. Returns the
timeout passed to the engine (`none` = `NULL`), or `none` overall when
`event_add` returns non-zero (fatal `CHECK_EQ`). -/
def Event.Add (timeout : ℚ) (addResult : Int) : Option (Option Timeval) :=
  let tvp : Option Timeval :=
    if 0 ≤ timeout then
      some ⟨Rat.floor timeout,
        Rat.floor ((timeout - (Rat.floor timeout : ℚ)) * kNumMicrosPerSecond)⟩
    else none
  if addResult = 0 then some tvp else none

/-- C5: arming with a negative timeout passes a null expiration to the
engine (waits indefinitely); arming with a non-negative timeout passes the
decomposition into the whole-second part `trunc t` (= `Rat.floor t` for
`t ≥ 0`, bounded by `⌊t⌋ ≤ t < ⌊t⌋ + 1`) and the sub-second part, the
remaining fraction scaled to microseconds, which indeed lies in
`[0, 1000000)`; and a non-zero `event_add` result is fatal. -/
theorem event_add_timeout_decomposition (t : ℚ) (r : Int) :
    (t < 0 → Event.Add t 0 = some none) ∧
    (0 ≤ t → Event.Add t 0 =
      some (some ⟨Rat.floor t,
        Rat.floor ((t - (Rat.floor t : ℚ)) * kNumMicrosPerSecond)⟩)) ∧
    (0 ≤ t → (Rat.floor t : ℚ) ≤ t ∧ t < (Rat.floor t : ℚ) + 1 ∧
      0 ≤ Rat.floor ((t - (Rat.floor t : ℚ)) * kNumMicrosPerSecond) ∧
      Rat.floor ((t - (Rat.floor t : ℚ)) * kNumMicrosPerSecond) < 1000000) ∧
    (r ≠ 0 → Event.Add t r = none) := by
  have hfl : (Rat.floor t : ℚ) ≤ t := Rat.le_floor.mp (le_refl _)
  have hlt : t < (Rat.floor t : ℚ) + 1 := by
    have h2 : ¬ ((Rat.floor t + 1 : ℤ) : ℚ) ≤ t := by
      intro hc
      exact absurd (Rat.le_floor.mpr hc) (by omega)
    push_cast at h2
    exact not_le.mp h2
  refine ⟨?_, ?_, ?_, ?_⟩
  · intro ht
    unfold Event.Add
    rw [if_neg (not_le.mpr ht), if_pos rfl]
  · intro ht
    unfold Event.Add
    rw [if_pos ht, if_pos rfl]
  · intro ht
    refine ⟨hfl, hlt, ?_, ?_⟩
    · refine Rat.le_floor.mpr ?_
      push_cast
      unfold kNumMicrosPerSecond
      nlinarith
    · have hx : (t - (Rat.floor t : ℚ)) * kNumMicrosPerSecond < 1000000 := by
        unfold kNumMicrosPerSecond
        nlinarith
      by_contra hc
      push_neg at hc
      have h3 := Rat.le_floor.mp hc
      push_cast at h3
      linarith
  · intro hr
    unfold Event.Add
    rw [if_neg hr]

/-- Helper: the source-level `Rat.floor` agrees with the floor of the
`FloorRing` instance on `ℚ`. -/
theorem rat_floor_eq_int_floor (q : ℚ) : Rat.floor q = ⌊q⌋ :=
  (Rat.floor_def' q).trans Rat.floor_def.symm

/-- Witness for C5 at concrete timeouts: -1 second arms with a null
expiration, 3 seconds arms with `tv_sec = 3` and `tv_usec = 0`, and a
failing `event_add` (result 1) is fatal. -/
theorem event_add_timeout_decomposition_witness :
    Event.Add (-1) 0 = some none ∧
    Event.Add 3 0 = some (some ⟨3, 0⟩) ∧
    Event.Add 3 1 = none :=
  ⟨(event_add_timeout_decomposition (-1) 1).1 (by norm_num),
    ((event_add_timeout_decomposition 3 1).2.1 (by norm_num)).trans (by
      simp [rat_floor_eq_int_floor, kNumMicrosPerSecond]),
    (event_add_timeout_decomposition 3 1).2.2.2 (by norm_num)⟩

end LibeventWrapper
